import Mathlib

/-!
Shallow embedding of the `nrt` near-real-time monitoring library
(`nrt/stats.py`, `nrt/monitor/__init__.py`, `nrt/monitor/cusum.py`) and
proofs about it.  Finite floating-point values are modelled as rationals
where the code performs only field arithmetic and comparisons, and as real
numbers where the code uses `sqrt`/`log`; machine-integer casts are made
explicit (`% 256` for the `uint8` cast).  Per-pixel arrays are modelled as
functions from an abstract pixel-index type.
-/

namespace Nrt

/-- Tukey biweight function from `nrt/stats.py` (`bisquare`):
`(np.abs(resid) < c) * (1 - (resid / c) ** 2) ** 2` with default tuning
constant `c = 4.685`.  The Python boolean factor is modelled as an
indicator. -/
def bisquare (resid : ℚ) (c : ℚ := 4.685) : ℚ :=
  (if |resid| < c then 1 else 0) * (1 - (resid / c) ^ 2) ^ 2

/-- Default break detector of the base engine, from `nrt/monitor/__init__.py`
(`BaseNrt._detect_break`):
`np.floor_divide(self.process, self.boundary).astype(np.uint8)`.
`np.floor_divide` floors the quotient; the `astype(np.uint8)` cast reduces
the floored quotient modulo `256` (the value stored in the returned `uint8`
array).  A pixel counts as a break when this value is nonzero, because the
caller combines it with `np.logical_and`. -/
def detect_break_default (process boundary : ℚ) : ℤ :=
  ⌊process / boundary⌋ % 256

/-- Comparison definition following the words of the specification for the
default break detector: the quotient `process / boundary` truncated toward
zero.  This is deliberately the spec's wording, not the code, to be compared
with `detect_break_default`. -/
def truncated_quotient (process boundary : ℚ) : ℤ :=
  if 0 ≤ process / boundary then ⌊process / boundary⌋ else ⌈process / boundary⌉

/-- Errors that `BaseNrt._fit` can raise: `ValueError` for configuration
errors and `NotImplementedError` for the LASSO method. -/
inductive FitError
  | valueError (msg : String)
  | notImplementedError (msg : String)
deriving DecidableEq

/-- Outcome of a successful `BaseNrt._fit` dispatch: whether a non-fatal
warning was emitted (`warnings.warn`) and which significance level was
passed on to the ROC stable fit (`none` for the other methods, which do not
pop an `alpha` keyword). -/
structure FitOutcome where
  warned : Bool
  alphaUsed : Option ℚ
deriving DecidableEq

/-- Configuration of a `BaseNrt._fit` call: the `method` string, the
`screen_outliers` argument (`none` models Python `None`), the instance's
`trend` flag, and the relevant keyword arguments (`alpha`, and whether
`green` and `swir` were supplied). -/
structure FitConfig where
  method : String
  screen_outliers : Option String
  trend : Bool
  alpha : Option ℚ
  hasGreen : Bool
  hasSwir : Bool
deriving DecidableEq

/-- Screening stage of `BaseNrt._fit` (step "1. Optionally screen
outliers").  Follows the `if`/`elif` chain of the source, including the
Python truthiness test `elif screen_outliers:` which is false for `None`
and for the empty string. -/
def screen_step (cfg : FitConfig) : Except FitError Unit :=
  match cfg.screen_outliers with
  | none => .ok ()
  | some s =>
    if s = "Shewhart" then .ok ()
    else if s = "CCDC_RIRLS" then
      if cfg.hasGreen && cfg.hasSwir then .ok ()
      else .error (.valueError "Parameters green and swir need to be passed for CCDC_RIRLS.")
    else if s ≠ "" then .error (.valueError "Unknown screen_outliers")
    else .ok ()

/-- Method-dispatch stage of `BaseNrt._fit` (step "2. Fit using specified
method").  Follows the `if`/`elif` chain of the source: `ROC` pops `alpha`
and falls back to `0.05` with a warning when it is absent; `CCDC-stable`
requires `trend`; `OLS` and `RIRLS` succeed; `LASSO` raises
`NotImplementedError`; anything else raises `ValueError`. -/
def method_step (cfg : FitConfig) : Except FitError FitOutcome :=
  if cfg.method = "ROC" then
    match cfg.alpha with
    | some a => .ok ⟨false, some a⟩
    | none => .ok ⟨true, some 0.05⟩
  else if cfg.method = "CCDC-stable" then
    if cfg.trend then .ok ⟨false, none⟩
    else .error (.valueError "Method CCDC requires trend to be true.")
  else if cfg.method = "OLS" then .ok ⟨false, none⟩
  else if cfg.method = "LASSO" then .error (.notImplementedError "Method not yet implemented")
  else if cfg.method = "RIRLS" then .ok ⟨false, none⟩
  else .error (.valueError "Unknown method")

/-- Control flow of `BaseNrt._fit`: outlier screening runs first and its
errors surface before method dispatch. -/
def fit_dispatch (cfg : FitConfig) : Except FitError FitOutcome :=
  match screen_step cfg with
  | .error e => .error e
  | .ok _ => method_step cfg

/-- Number of monitored pixels in a flattened mask grid; models the column
count of `y_flat = y[:, mask_bool]` with `mask_bool = self.mask == 1` in
`BaseNrt._fit`. -/
def num_monitored (mask : List ℕ) : ℕ :=
  (mask.filter (fun m => m == 1)).length

/-- Row chunking used to model a 2-D reshape. -/
def chunk_rows (w : ℕ) : ℕ → List Bool → List (List Bool)
  | 0, _ => []
  | hrows + 1, l => l.take w :: chunk_rows w hrows (l.drop w)

/-- Models `numpy.ndarray.reshape(h, w)` applied to a 1-D vector:
it succeeds exactly when the vector has `h * w` elements and raises
`ValueError` (modelled by `none`) otherwise.  Used for
`is_stable.reshape(y.shape[1], y.shape[2])` in `BaseNrt._fit`. -/
def np_reshape (v : List Bool) (h w : ℕ) : Option (List (List Bool)) :=
  if v.length = h * w then some (chunk_rows w h v) else none

/-- Per-tile state of a `CuSum` monitoring instance (`nrt/monitor/cusum.py`),
indexed by an abstract pixel-index type `ι`.  `mask` holds the byte codes
`0/1/2/3`; `process`, `boundary`, `sigma` are the per-pixel float arrays;
`histsize` and `n` are the per-pixel `uint16` observation counts; `critval`
is the scalar critical value derived once from `sensitivity`. -/
structure CuSumState (ι : Type) where
  mask : ι → ℕ
  process : ι → ℝ
  boundary : ι → ℝ
  sigma : ι → ℝ
  histsize : ι → ℕ
  n : ι → ℕ
  critval : ℝ

/-- Validity mask computed by `BaseNrt.monitor`:
`np.logical_and(self.mask == 1, np.isfinite(array))`, where a non-finite
observation is modelled by `none`.  `CuSum` does not override
`_detect_extreme_outliers`, whose base-class fallback returns this array
unchanged. -/
def is_valid_pix {ι : Type} (s : CuSumState ι) (obs : ι → Option ℝ) : ι → Bool :=
  fun i => (s.mask i == 1) && (obs i).isSome

/-- Residual grid computed by `BaseNrt.monitor`: `array - y_pred`, with the
prediction grid `y_pred = self.predict(date)` passed in as a function
(prediction reads only `beta` and the date, which the monitor step never
mutates).  At non-finite observations the code produces NaN; the value is
only ever read under the validity mask, and it is modelled by `getD 0`. -/
def residuals_of {ι : Type} (obs : ι → Option ℝ) (ypred : ι → ℝ) : ι → ℝ :=
  fun i => (obs i).getD 0 - ypred i

/-- Boundary formula of `CuSum._update_process`:
`np.sqrt(x * (x - 1) * (self.critval ** 2 + np.log(x / (x - 1))))`
with `x = n / histsize`. -/
noncomputable def cusum_boundary (critval histsize n : ℝ) : ℝ :=
  Real.sqrt (n / histsize * (n / histsize - 1) *
    (critval ^ 2 + Real.log (n / histsize / (n / histsize - 1))))

/-- Process update of `CuSum._update_process`: increment `n` where valid,
recompute `boundary` where valid (`np.where(is_valid, ..., self.boundary)`),
and add the normalised residual `residuals / (self.sigma * np.sqrt(self.histsize))`
to `process` where valid (`np.where(is_valid, ..., self.process)`). -/
noncomputable def update_process {ι : Type} (s : CuSumState ι)
    (residuals : ι → ℝ) (valid : ι → Bool) : CuSumState ι :=
  { s with
    n := fun i => s.n i + (if valid i then 1 else 0),
    boundary := fun i =>
      if valid i then
        cusum_boundary s.critval (s.histsize i) (s.n i + (if valid i then 1 else 0) : ℕ)
      else s.boundary i,
    process := fun i =>
      if valid i then s.process i + residuals i / (s.sigma i * Real.sqrt (s.histsize i))
      else s.process i }

/-- Break rule of `CuSum._detect_break`:
`np.abs(self.process) > self.boundary`, evaluated on the arrays as updated
by `_update_process`. -/
def cusum_detect_break {ι : Type} (process boundary : ι → ℝ) (i : ι) : Prop :=
  |process i| > boundary i

open scoped Classical in
/-- Monitoring step `BaseNrt.monitor` specialised to `CuSum`: compute the
validity mask, run `_update_process`, then set the mask to `3` where
validity and `_detect_break` agree
(`np.where(np.logical_and(is_valid, is_break), 3, self.mask)`). -/
noncomputable def monitor {ι : Type} (s : CuSumState ι) (obs : ι → Option ℝ)
    (ypred : ι → ℝ) : CuSumState ι :=
  let s2 := update_process s (residuals_of obs ypred) (is_valid_pix s obs)
  { s2 with
    mask := fun i =>
      if is_valid_pix s obs i = true ∧ cusum_detect_break s2.process s2.boundary i then 3
      else s.mask i }

/-- Iterated monitoring: a sequence of `monitor` calls, each with its own
observation grid and prediction grid. -/
noncomputable def monitor_many {ι : Type} (s : CuSumState ι)
    (steps : List ((ι → Option ℝ) × (ι → ℝ))) : CuSumState ι :=
  steps.foldl (fun acc st => monitor acc st.1 st.2) s

/-- Value produced by numpy for
`np.full_like(arr_uint16, np.nan, dtype=np.uint16)`: the float fill value
NaN undergoes an unsafe cast to `uint16`, which yields `0` (an unsigned
integer type has no NaN). -/
def np_uint16_of_nan : ℕ := 0

/-- Boundary array created by `CuSum.fit`:
`self.boundary = np.full_like(self.histsize, np.nan, dtype=np.uint16)`. -/
def cusum_fit_boundary {ι : Type} (histsize : ι → ℕ) : ι → ℕ :=
  fun _ => np_uint16_of_nan

/-- Claim C9: for every residual `r` with `|r| >= 4.685` (the default
tuning constant `c`), the bisquare weight is exactly `0`; for `r = 0` it is
exactly `1`; and in general the weight equals
`(|r| < c) * (1 - (r/c)^2)^2`. -/
theorem bisquare_weight :
    (∀ r : ℚ, 4.685 ≤ |r| → bisquare r = 0) ∧
    bisquare 0 = 1 ∧
    ∀ r c : ℚ, bisquare r c = (if |r| < c then 1 else 0) * (1 - (r / c) ^ 2) ^ 2 := by
  refine ⟨fun r hr => ?_, by norm_num [bisquare], fun r c => rfl⟩
  rw [bisquare, if_neg (not_lt.mpr hr), zero_mul]

/-- Witness for C9 at the concrete residuals `r = -5` and `r = 0`. -/
theorem bisquare_weight_witness :
    ((4.685 : ℚ) ≤ |(-5 : ℚ)| ∧ bisquare (-5) = 0) ∧ bisquare 0 = 1 :=
  ⟨⟨by norm_num, bisquare_weight.1 (-5) (by norm_num)⟩, bisquare_weight.2.1⟩

/-- Counterexample to claim C4 as stated: at `process = -1`, `boundary = 2`
the code's detector (`np.floor_divide` then `uint8` cast) reports a break
(`floor(-1/2) = -1`, cast to `255`, nonzero) while the truncated quotient
of the claim is `0` (no break). -/
theorem default_break_trunc_cex :
    ¬ ((detect_break_default (-1) 2 ≠ 0) ↔ (truncated_quotient (-1) 2 ≠ 0)) := by
  have hfloor : ⌊(-1 : ℚ) / 2⌋ = -1 := by
    rw [Int.floor_eq_iff] <;> norm_num
  have hceil : ⌈(-1 : ℚ) / 2⌉ = 0 := by
    rw [Int.ceil_eq_iff] <;> norm_num
  have h1 : detect_break_default (-1) 2 = 255 := by
    rw [detect_break_default, hfloor]; decide
  have h2 : truncated_quotient (-1) 2 = 0 := by
    rw [truncated_quotient, if_neg (by norm_num), hceil]
  rw [h1, h2]
  norm_num

/-- Claim C4 (amended): for a nonzero boundary, the default break detector
flags a break if and only if the floored quotient
`floor(process / boundary)`, reduced modulo `256` by the `uint8` cast, is
nonzero — equivalently, iff `256` does not divide the floored quotient. -/
theorem default_break_floor_mod (process boundary : ℚ) (hb : boundary ≠ 0) :
    detect_break_default process boundary ≠ 0 ↔
      ¬ ((256 : ℤ) ∣ ⌊process / boundary⌋) := by
  rw [detect_break_default]
  exact not_congr EuclideanDomain.mod_eq_zero

/-- Witness for C4's amended theorem at `process = 3`, `boundary = 1`. -/
theorem default_break_floor_mod_witness :
    (1 : ℚ) ≠ 0 ∧
      (detect_break_default 3 1 ≠ 0 ↔ ¬ ((256 : ℤ) ∣ ⌊(3 : ℚ) / 1⌋)) :=
  ⟨by norm_num, default_break_floor_mod 3 1 (by norm_num)⟩

/-- Claim C3 (code evaluated at the failing input): immediately after
`CuSum.fit`, the boundary array — created by
`np.full_like(self.histsize, np.nan, dtype=np.uint16)` — holds `0` at every
pixel, because the `uint16` dtype cannot represent the NaN fill value and
the unsafe cast maps NaN to `0`. -/
theorem cusum_fit_boundary_zero {ι : Type} (histsize : ι → ℕ) (i : ι) :
    cusum_fit_boundary histsize i = 0 :=
  rfl

/-- Counterexample to claim C7 as stated: the empty string is a screening
name other than `Shewhart` and `CCDC_RIRLS`, yet `_fit` raises no error for
it — the Python truthiness test `elif screen_outliers:` is false for `""`,
so screening is silently skipped and the fit proceeds. -/
theorem fit_empty_screen_no_error :
    ("" : String) ≠ "Shewhart" ∧ ("" : String) ≠ "CCDC_RIRLS" ∧
      fit_dispatch ⟨"OLS", some "", true, none, false, false⟩ =
        .ok ⟨false, none⟩ := by
  refine ⟨by decide, by decide, rfl⟩

/-- Claim C7 (amended): `_fit` raises a fatal error immediately for every
invalid configuration — `LASSO` raises a not-implemented error; any method
name other than the five recognised ones raises a configuration error; any
non-empty screening name other than `Shewhart` or `CCDC_RIRLS` raises a
configuration error (the empty string is falsy in Python and silently skips
screening); `CCDC-stable` without trend raises an error; and `CCDC_RIRLS`
screening without both `green` and `swir` raises an error.  No invalid
configuration silently falls back to another method. -/
theorem fit_invalid_config (cfg : FitConfig) :
    (cfg.method = "LASSO" → screen_step cfg = .ok () →
      fit_dispatch cfg = .error (.notImplementedError "Method not yet implemented")) ∧
    (cfg.method ≠ "OLS" → cfg.method ≠ "RIRLS" → cfg.method ≠ "ROC" →
      cfg.method ≠ "CCDC-stable" → cfg.method ≠ "LASSO" → screen_step cfg = .ok () →
      fit_dispatch cfg = .error (.valueError "Unknown method")) ∧
    (∀ sname : String, cfg.screen_outliers = some sname → sname ≠ "Shewhart" →
      sname ≠ "CCDC_RIRLS" → sname ≠ "" →
      fit_dispatch cfg = .error (.valueError "Unknown screen_outliers")) ∧
    (cfg.method = "CCDC-stable" → cfg.trend = false → screen_step cfg = .ok () →
      fit_dispatch cfg = .error (.valueError "Method CCDC requires trend to be true.")) ∧
    (cfg.screen_outliers = some "CCDC_RIRLS" → ¬(cfg.hasGreen = true ∧ cfg.hasSwir = true) →
      fit_dispatch cfg =
        .error (.valueError "Parameters green and swir need to be passed for CCDC_RIRLS.")) := by
  refine ⟨fun hm hs => ?_, fun h1 h2 h3 h4 h5 hs => ?_, fun sname hso h1 h2 h3 => ?_,
    fun hm ht hs => ?_, fun hso hgs => ?_⟩
  · rw [fit_dispatch, hs]
    simp [method_step, hm]
  · rw [fit_dispatch, hs]
    simp [method_step, h1, h2, h3, h4, h5]
  · have hscreen : screen_step cfg =
        .error (.valueError "Unknown screen_outliers") := by
      rw [screen_step, hso]
      simp [h1, h2, h3]
    rw [fit_dispatch, hscreen]
  · rw [fit_dispatch, hs]
    simp [method_step, hm, ht]
  · have hscreen : screen_step cfg =
        .error (.valueError "Parameters green and swir need to be passed for CCDC_RIRLS.") := by
      rw [screen_step, hso]
      have hfalse : (cfg.hasGreen && cfg.hasSwir) = false := by
        cases hg : cfg.hasGreen <;> cases hw : cfg.hasSwir <;> simp_all
      simp [hfalse]
    rw [fit_dispatch, hscreen]

/-- Witness for C7 exercising each error clause at a concrete
configuration. -/
theorem fit_invalid_config_witness :
    fit_dispatch ⟨"LASSO", none, true, none, false, false⟩ =
      .error (.notImplementedError "Method not yet implemented") ∧
    fit_dispatch ⟨"GLS", none, true, none, false, false⟩ =
      .error (.valueError "Unknown method") ∧
    fit_dispatch ⟨"OLS", some "IQR", true, none, false, false⟩ =
      .error (.valueError "Unknown screen_outliers") ∧
    fit_dispatch ⟨"CCDC-stable", none, false, none, false, false⟩ =
      .error (.valueError "Method CCDC requires trend to be true.") ∧
    fit_dispatch ⟨"OLS", some "CCDC_RIRLS", true, none, true, false⟩ =
      .error (.valueError "Parameters green and swir need to be passed for CCDC_RIRLS.") :=
  ⟨(fit_invalid_config _).1 rfl rfl,
   (fit_invalid_config _).2.1 (by decide) (by decide) (by decide) (by decide) (by decide) rfl,
   (fit_invalid_config _).2.2.1 "IQR" rfl (by decide) (by decide) (by decide),
   (fit_invalid_config _).2.2.2.1 rfl rfl rfl,
   (fit_invalid_config _).2.2.2.2 rfl (by decide)⟩

/-- Claim C8: calling `_fit` with method `ROC` and no `alpha` keyword does
not fail — it emits a non-fatal warning, substitutes the default
`alpha = 0.05`, and proceeds exactly as if `alpha = 0.05` had been supplied
(which produces the same outcome without the warning). -/
theorem roc_alpha_default (cfg : FitConfig) (hm : cfg.method = "ROC")
    (ha : cfg.alpha = none) (hs : screen_step cfg = .ok ()) :
    fit_dispatch cfg = .ok ⟨true, some 0.05⟩ ∧
    fit_dispatch {cfg with alpha := some 0.05} = .ok ⟨false, some 0.05⟩ := by
  have hs2 : screen_step {cfg with alpha := some 0.05} = .ok () := hs
  constructor
  · rw [fit_dispatch, hs]
    simp [method_step, hm, ha]
  · rw [fit_dispatch, hs2]
    simp [method_step, hm]

/-- Witness for C8 at a concrete ROC configuration without `alpha`. -/
theorem roc_alpha_default_witness :
    fit_dispatch ⟨"ROC", none, true, none, false, false⟩ = .ok ⟨true, some 0.05⟩ ∧
    fit_dispatch ⟨"ROC", none, true, some 0.05, false, false⟩ = .ok ⟨false, some 0.05⟩ :=
  roc_alpha_default ⟨"ROC", none, true, none, false, false⟩ rfl rfl rfl

/-- Claim C10: in `_fit` with a stability-aware method, the per-pixel
stability vector has one entry per pixel with `mask == 1`
(`roc_stable_fit`/`ccdc_stable_fit` return one flag per column of
`y_flat = y[:, mask_bool]`; this length is taken from the specification of
the fit methods, whose source is not part of the embedded tree), and it is
then reshaped to the full grid shape `(h, w)`.  The reshape succeeds exactly
when every pixel of the grid carries mask code `1`; with any pixel excluded
the lengths mismatch and the operation fails. -/
theorem stable_reshape_requires_full_mask (mask : List ℕ) (h w : ℕ)
    (stable : List Bool) (hlen : mask.length = h * w)
    (hstable : stable.length = num_monitored mask) :
    (np_reshape stable h w).isSome = true ↔ ∀ m ∈ mask, m = 1 := by
  have hiff : (np_reshape stable h w).isSome = true ↔ stable.length = h * w := by
    by_cases hc : stable.length = h * w
    · simp [np_reshape, hc]
    · simp [np_reshape, hc]
  rw [hiff, hstable, ← hlen, num_monitored, List.filter_length_eq_length]
  constructor
  · intro hall m hm
    simpa using hall m hm
  · intro hall m hm
    simpa using hall m hm

/-- Witness for C10: on a fully monitored 2-by-2 grid the reshape of a
4-element stability vector succeeds, and the equivalence holds. -/
theorem stable_reshape_requires_full_mask_witness :
    ([1, 1, 1, 1] : List ℕ).length = 2 * 2 ∧
    ([true, false, true, true] : List Bool).length = num_monitored [1, 1, 1, 1] ∧
    ((np_reshape [true, false, true, true] 2 2).isSome = true ↔
      ∀ m ∈ ([1, 1, 1, 1] : List ℕ), m = 1) :=
  ⟨by decide, by decide,
    stable_reshape_requires_full_mask [1, 1, 1, 1] 2 2 [true, false, true, true]
      (by decide) (by decide)⟩

/-- Helper: at a pixel whose validity mask is false, a single `monitor`
step leaves every per-pixel field unchanged. -/
lemma monitor_frame_aux {ι : Type} (s : CuSumState ι) (obs : ι → Option ℝ)
    (ypred : ι → ℝ) (i : ι) (hv : is_valid_pix s obs i = false) :
    (monitor s obs ypred).mask i = s.mask i ∧
    (monitor s obs ypred).process i = s.process i ∧
    (monitor s obs ypred).boundary i = s.boundary i ∧
    (monitor s obs ypred).n i = s.n i ∧
    (monitor s obs ypred).sigma i = s.sigma i ∧
    (monitor s obs ypred).histsize i = s.histsize i := by
  refine ⟨?_, ?_, ?_, ?_, rfl, rfl⟩ <;>
    simp [monitor, update_process, hv]

/-- Claim C1: in every monitoring step of the CuSum monitor, a pixel is
classified as broken — its mask set to `3` — exactly when it is valid and
the absolute value of its (updated) process statistic strictly exceeds its
(updated) boundary value; pixels already at `3` stay at `3`. -/
theorem cusum_break_detection {ι : Type} (s : CuSumState ι)
    (obs : ι → Option ℝ) (ypred : ι → ℝ) (i : ι) :
    (monitor s obs ypred).mask i = 3 ↔
      ((is_valid_pix s obs i = true ∧
        |(monitor s obs ypred).process i| > (monitor s obs ypred).boundary i) ∨
       s.mask i = 3) := by
  classical
  have hmask : (monitor s obs ypred).mask i =
      if is_valid_pix s obs i = true ∧
          cusum_detect_break (monitor s obs ypred).process
            (monitor s obs ypred).boundary i
        then 3 else s.mask i := rfl
  rw [hmask]
  simp only [cusum_detect_break]
  split
  case isTrue hc => exact iff_of_true rfl (Or.inl hc)
  case isFalse hc =>
    constructor
    · intro h3
      exact Or.inr h3
    · rintro (hbr | h3)
      · exact absurd hbr hc
      · exact h3

/-- Claim C6: the process update of a CuSum monitoring step mutates
`process`, `boundary` and the observation count `n` only at pixels that are
valid (`mask == 1` and the new observation finite); at every other pixel
these arrays retain exactly their previous values. -/
theorem monitor_updates_only_valid {ι : Type} (s : CuSumState ι)
    (obs : ι → Option ℝ) (ypred : ι → ℝ) (i : ι)
    (h : ¬(s.mask i = 1 ∧ (obs i).isSome = true)) :
    (monitor s obs ypred).process i = s.process i ∧
    (monitor s obs ypred).boundary i = s.boundary i ∧
    (monitor s obs ypred).n i = s.n i := by
  have hv : is_valid_pix s obs i = false := by
    rw [is_valid_pix]
    cases hm : (s.mask i == 1) <;> cases ho : (obs i).isSome <;> simp_all
  obtain ⟨-, hp, hb, hn, -, -⟩ := monitor_frame_aux s obs ypred i hv
  exact ⟨hp, hb, hn⟩

/-- Claim C2: a pixel with mask code `3` (confirmed break) is terminal —
any sequence of further `monitor` calls, with arbitrary observation grids
and predictions, leaves its mask equal to `3` and all of its per-pixel
state unchanged, because updates only act where `mask == 1`. -/
theorem confirmed_break_terminal {ι : Type} (s : CuSumState ι)
    (steps : List ((ι → Option ℝ) × (ι → ℝ))) (i : ι) (h3 : s.mask i = 3) :
    (monitor_many s steps).mask i = 3 ∧
    (monitor_many s steps).process i = s.process i ∧
    (monitor_many s steps).boundary i = s.boundary i ∧
    (monitor_many s steps).n i = s.n i ∧
    (monitor_many s steps).sigma i = s.sigma i ∧
    (monitor_many s steps).histsize i = s.histsize i := by
  induction steps generalizing s with
  | nil => exact ⟨h3, rfl, rfl, rfl, rfl, rfl⟩
  | cons st rest ih =>
    have hv : is_valid_pix s st.1 i = false := by
      rw [is_valid_pix]
      simp [h3]
    obtain ⟨hm, hp, hb, hn, hsg, hh⟩ := monitor_frame_aux s st.1 st.2 i hv
    have hstep : monitor_many s (st :: rest) = monitor_many (monitor s st.1 st.2) rest := rfl
    obtain ⟨im, ip, ib, inn, isg, ih2⟩ := ih (monitor s st.1 st.2) (hm.trans h3)
    rw [hstep]
    exact ⟨im, ip.trans hp, ib.trans hb, inn.trans hn, isg.trans hsg, ih2.trans hh⟩

/-- Helper: derivative of the inner boundary expression
`x * (x - 1) * (c^2 + (log x - log (x - 1)))` at a point `x > 1`. -/
lemma boundary_inner_hasDerivAt (c x : ℝ) (hx : 1 < x) :
    HasDerivAt (fun t : ℝ => t * (t - 1) * (c ^ 2 + (Real.log t - Real.log (t - 1))))
      ((2 * x - 1) * (c ^ 2 + (Real.log x - Real.log (x - 1))) +
        x * (x - 1) * (x⁻¹ - (x - 1)⁻¹)) x := by
  have hx0 : x ≠ 0 := ne_of_gt (lt_trans one_pos hx)
  have hx1 : x - 1 ≠ 0 := sub_ne_zero.mpr (ne_of_gt hx)
  have d1 : HasDerivAt (fun t : ℝ => t * (t - 1)) (2 * x - 1) x := by
    have h := (hasDerivAt_id x).mul ((hasDerivAt_id x).sub_const 1)
    convert h using 1
    simp only [id_eq]
    ring
  have dlog1 : HasDerivAt (fun t : ℝ => Real.log (t - 1)) ((x - 1)⁻¹) x := by
    have h := (Real.hasDerivAt_log hx1).comp x ((hasDerivAt_id x).sub_const 1)
    convert h using 1
    ring
  have d2 : HasDerivAt (fun t : ℝ => c ^ 2 + (Real.log t - Real.log (t - 1)))
      (x⁻¹ - (x - 1)⁻¹) x :=
    ((Real.hasDerivAt_log hx0).sub dlog1).const_add (c ^ 2)
  exact d1.mul d2

/-- Helper: that derivative is nonnegative for `x > 1`, using
`log x - log (x - 1) ≥ 1 / x`. -/
lemma boundary_inner_deriv_nonneg (c x : ℝ) (hx : 1 < x) :
    0 ≤ (2 * x - 1) * (c ^ 2 + (Real.log x - Real.log (x - 1))) +
        x * (x - 1) * (x⁻¹ - (x - 1)⁻¹) := by
  have hx0 : (0:ℝ) < x := lt_trans one_pos hx
  have hx1 : (0:ℝ) < x - 1 := sub_pos.mpr hx
  have hlog : 1 / x ≤ Real.log x - Real.log (x - 1) := by
    have h1 : Real.log ((x - 1) / x) ≤ (x - 1) / x - 1 :=
      Real.log_le_sub_one_of_pos (div_pos hx1 hx0)
    rw [Real.log_div (ne_of_gt hx1) (ne_of_gt hx0)] at h1
    have h3 : (x - 1) / x - 1 = -(1 / x) := by field_simp
    rw [h3] at h1
    linarith
  have hterm2 : x * (x - 1) * (x⁻¹ - (x - 1)⁻¹) = -1 := by
    field_simp
  have h2x : (0:ℝ) < 2 * x - 1 := by linarith
  have hc : 0 ≤ c ^ 2 := sq_nonneg c
  have hmain : (2 * x - 1) * (1 / x) ≤
      (2 * x - 1) * (c ^ 2 + (Real.log x - Real.log (x - 1))) := by
    apply mul_le_mul_of_nonneg_left _ (le_of_lt h2x)
    linarith
  have hfrac : 1 ≤ (2 * x - 1) * (1 / x) := by
    rw [mul_one_div, le_div_iff₀ hx0]
    linarith
  linarith

/-- Helper: the inner boundary expression is monotone on `(1, ∞)`. -/
lemma boundary_inner_monotoneOn (c : ℝ) :
    MonotoneOn (fun x : ℝ => x * (x - 1) * (c ^ 2 + (Real.log x - Real.log (x - 1))))
      (Set.Ioi 1) := by
  apply monotoneOn_of_deriv_nonneg (convex_Ioi 1)
  · intro x hx
    exact (boundary_inner_hasDerivAt c x hx).continuousAt.continuousWithinAt
  · intro x hx
    rw [interior_Ioi] at hx
    exact (boundary_inner_hasDerivAt c x hx).differentiableAt.differentiableWithinAt
  · intro x hx
    rw [interior_Ioi] at hx
    rw [(boundary_inner_hasDerivAt c x hx).deriv]
    exact boundary_inner_deriv_nonneg c x hx

/-- Claim C5: holding `critval` and `histsize` fixed (with `histsize`
positive), the CuSum boundary value
`sqrt(x * (x - 1) * (critval^2 + ln(x / (x - 1))))` with `x = n / histsize`
is non-decreasing in `n` for every `n` strictly greater than `histsize`. -/
theorem cusum_boundary_monotone (critval histsize n1 n2 : ℝ)
    (h0 : 0 < histsize) (h1 : histsize < n1) (h2 : n1 ≤ n2) :
    cusum_boundary critval histsize n1 ≤ cusum_boundary critval histsize n2 := by
  rw [cusum_boundary, cusum_boundary]
  apply Real.sqrt_le_sqrt
  have hx1 : 1 < n1 / histsize := (one_lt_div h0).mpr h1
  have hx12 : n1 / histsize ≤ n2 / histsize := by gcongr
  have hx2 : 1 < n2 / histsize := lt_of_lt_of_le hx1 hx12
  have key : ∀ x : ℝ, 1 < x →
      x * (x - 1) * (critval ^ 2 + Real.log (x / (x - 1))) =
      x * (x - 1) * (critval ^ 2 + (Real.log x - Real.log (x - 1))) := by
    intro x hx
    rw [Real.log_div (ne_of_gt (lt_trans one_pos hx)) (sub_ne_zero.mpr (ne_of_gt hx))]
  rw [key _ hx1, key _ hx2]
  exact boundary_inner_monotoneOn critval (Set.mem_Ioi.mpr hx1) (Set.mem_Ioi.mpr hx2) hx12

/-- Witness for C5 at `critval = 1`, `histsize = 1`, `n = 2 ≤ 3`. -/
theorem cusum_boundary_monotone_witness :
    (0 : ℝ) < 1 ∧ (1 : ℝ) < 2 ∧ (2 : ℝ) ≤ 3 ∧
      cusum_boundary 1 1 2 ≤ cusum_boundary 1 1 3 :=
  ⟨one_pos, one_lt_two, by norm_num,
    cusum_boundary_monotone 1 1 2 3 one_pos one_lt_two (by norm_num)⟩

/-- Concrete one-pixel state whose pixel carries the confirmed-break code. -/
def broken_state : CuSumState Unit :=
  ⟨fun _ => 3, fun _ => 2, fun _ => 1, fun _ => 1, fun _ => 8, fun _ => 8, 1⟩

/-- Witness for C2: one further monitor call on a confirmed-break pixel,
with a finite observation, changes nothing at that pixel. -/
theorem confirmed_break_terminal_witness :
    broken_state.mask () = 3 ∧
    (monitor_many broken_state
        [((fun _ => some 5 : Unit → Option ℝ), (fun _ => 0 : Unit → ℝ))]).mask () = 3 ∧
    (monitor_many broken_state
        [((fun _ => some 5 : Unit → Option ℝ), (fun _ => 0 : Unit → ℝ))]).process () =
      broken_state.process () :=
  ⟨rfl,
    (confirmed_break_terminal broken_state
      [((fun _ => some 5 : Unit → Option ℝ), (fun _ => 0 : Unit → ℝ))] () rfl).1,
    (confirmed_break_terminal broken_state
      [((fun _ => some 5 : Unit → Option ℝ), (fun _ => 0 : Unit → ℝ))] () rfl).2.1⟩

/-- Concrete one-pixel state whose pixel is not monitored (`mask = 0`). -/
def unmonitored_state : CuSumState Unit :=
  ⟨fun _ => 0, fun _ => 2, fun _ => 1, fun _ => 1, fun _ => 8, fun _ => 8, 1⟩

/-- Witness for C6: at a pixel that is not monitored, a monitor step with a
finite observation leaves `process`, `boundary` and `n` unchanged. -/
theorem monitor_updates_only_valid_witness :
    ¬(unmonitored_state.mask () = 1 ∧ (some (5 : ℝ)).isSome = true) ∧
    (monitor unmonitored_state (fun _ => some 5) (fun _ => 0)).process () =
      unmonitored_state.process () ∧
    (monitor unmonitored_state (fun _ => some 5) (fun _ => 0)).boundary () =
      unmonitored_state.boundary () ∧
    (monitor unmonitored_state (fun _ => some 5) (fun _ => 0)).n () =
      unmonitored_state.n () :=
  ⟨by simp [unmonitored_state],
    monitor_updates_only_valid unmonitored_state (fun _ => some 5) (fun _ => 0) ()
      (by simp [unmonitored_state])⟩

end Nrt
